import Mathlib

/-! Verification of the Image Atlas Generator (`src/imgss.py`) against its
natural-language specification.

Modelling conventions:

* Python `float` arithmetic is modelled exactly over `ℚ` (the spec's formulas
  are also stated over `ℝ` where they use `sqrt`); `int(x)` on a nonnegative
  value truncates, i.e. is `⌊x⌋₊`; `math.floor` / `math.ceil` are `⌊·⌋` /
  `⌈·⌉`; Python `//` on integers is floor division, i.e. `Int.fdiv`.
* Exceptions are modelled with `Except` / `Option`; the error taxonomy of the
  spec (`DirectoryNotFound`, `NoImagesFound`, per-image failures) becomes an
  explicit error type.
* The filesystem is a parameter: a directory listing is `Option (List String)`
  (`none` = the directory does not exist), and decoding of an image file is an
  oracle `String → ImageOutcome` describing whether / where per-image
  processing fails and what pixel dimensions a successful decode yields.
* PIL raster contents are not modelled; a paste onto the atlas canvas is
  recorded as a `PasteOp` (position and size), which is all the placement
  claims speak about.
-/

namespace Imgss

/-- The supported extensions, `self.supported_formats` (imgss.py line 24). -/
def supported_formats : List String := [".png", ".jpeg", ".jpg", ".webm", ".webp"]

/-- Index of the last occurrence of `c` in `cs` (Python `str.rfind`), if any. -/
def rfindIdx? (c : Char) (cs : List Char) : Option Nat :=
  match cs.reverse.findIdx? (fun d => d == c) with
  | none => none
  | some j => some (cs.length - 1 - j)

/-- `os.path.splitext` (posix): split off the extension at the last dot,
provided that dot lies in the basename (after the last `/`) and is preceded
there by at least one non-dot character (so `.bashrc` has no extension). -/
def splitext (s : String) : String × String :=
  let cs := s.toList
  let base := match rfindIdx? '/' cs with
    | none => 0
    | some i => i + 1
  match rfindIdx? '.' cs with
  | none => (s, "")
  | some d =>
      if base ≤ d ∧ ((cs.drop base).take (d - base)).any (fun c => c ≠ '.') then
        ((cs.take d).asString, (cs.drop d).asString)
      else (s, "")

/-- `os.path.basename` (posix): the part after the last `/`. -/
def basename (s : String) : String :=
  match rfindIdx? '/' (s.toList) with
  | none => s
  | some i => ((s.toList).drop (i + 1)).asString

/-- Python `s.endswith("/")`: the last character is `/`. -/
def ends_with_slash (s : String) : Bool :=
  s.toList.getLast? == some '/'

/-- `os.path.join dir f` (posix) for a relative entry name `f`, as produced by
`os.listdir`. -/
def path_join (dir f : String) : String :=
  if dir = "" then f
  else if ends_with_slash dir then dir ++ f
  else dir ++ "/" ++ f

/-- Python `str.lower` on a filename extension.  (`str.lower` is
full-Unicode; the extensions compared against are ASCII, for which the
per-character basic-latin lowering agrees.) -/
def lower (s : String) : String :=
  (s.toList.map Char.toLower).asString

/-- The extension test of `get_image_files` (imgss.py lines 34–35):
`os.path.splitext(filename)[1].lower() in self.supported_formats`. -/
def is_supported_file (filename : String) : Bool :=
  supported_formats.contains (lower (splitext filename).2)

/-- Lexicographic comparison of character lists by code point — the order
Python's `sorted` uses on strings, and the order underlying Lean's
`LT String`.  (Defined by direct recursion so that it evaluates by kernel
reduction.) -/
def charListLt : List Char → List Char → Bool
  | [], [] => false
  | [], _ :: _ => true
  | _ :: _, [] => false
  | a :: as, b :: bs =>
      if a < b then true else if b < a then false else charListLt as bs

/-- `charListLt` decides the lexicographic order `List.Lex (· < ·)`, which is
the order on strings (`String.lt_iff_toList_lt`). -/
theorem charListLt_lex :
    ∀ x y : List Char, charListLt x y = true ↔ List.Lex (· < ·) x y
  | [], [] => by
      constructor
      · intro h
        simp [charListLt] at h
      · intro h
        cases h
  | [], b :: bs => by
      constructor
      · intro _
        exact List.Lex.nil
      · intro _
        rfl
  | a :: as, [] => by
      constructor
      · intro h
        simp [charListLt] at h
      · intro h
        cases h
  | a :: as, b :: bs => by
      simp only [charListLt]
      rcases lt_trichotomy a b with hab | hab | hab
      · rw [if_pos hab]
        constructor
        · intro _
          exact List.Lex.rel hab
        · intro _
          rfl
      · subst hab
        rw [if_neg (lt_irrefl a), if_neg (lt_irrefl a)]
        constructor
        · intro h
          exact List.Lex.cons ((charListLt_lex as bs).mp h)
        · intro h
          cases h with
          | cons h' => exact (charListLt_lex as bs).mpr h'
          | rel h' => exact absurd h' (lt_irrefl a)
      · have hba : ¬ a < b := lt_asymm hab
        rw [if_neg hba, if_pos hab]
        constructor
        · intro h
          cases h
        · intro h
          cases h with
          | cons h' => exact absurd hab (lt_irrefl a)
          | rel h' => exact absurd h' hba

/-- Kernel-computable decidability of `String` `<` (the ambient instance
walks byte positions through an iterator and does not reduce in the
kernel). -/
def decStrLt : (a b : String) → Decidable (a < b) := fun a b =>
  decidable_of_iff (charListLt a.toList b.toList = true)
    ((charListLt_lex a.toList b.toList).trans
      (by rw [String.lt_iff_toList_lt]; exact Iff.rfl))

/-- Kernel-computable decidability of `String` `≤`. -/
def decStrLe : DecidableRel (fun a b : String => a ≤ b) := fun a b =>
  decidable_of_iff (charListLt b.toList a.toList = false) (by
    show _ ↔ a ≤ b
    rw [← (not_lt : ¬ b < a ↔ a ≤ b), String.lt_iff_toList_lt]
    constructor
    · intro h hc
      have hc' : List.Lex (· < ·) b.toList a.toList := hc
      rw [← charListLt_lex b.toList a.toList, h] at hc'
      exact Bool.false_ne_true hc'
    · intro h
      rcases Bool.eq_false_or_eq_true (charListLt b.toList a.toList) with ht | hf
      · exact absurd (show b.toList < a.toList from
          (charListLt_lex b.toList a.toList).mp ht) h
      · exact hf)

/-- The constructor arguments of `ImageAtlasGenerator` (imgss.py lines 16–23). -/
structure ImageAtlasGenerator where
  input_dir : String
  output_path : String
  output_name : String
  sprite_width : Nat
  sprite_height : Nat
  atlas_width : Nat
  atlas_height : Nat
deriving Repr, DecidableEq

/-- Errors of the run, following the spec's taxonomy (§7): `DirectoryNotFound`
is Python's `FileNotFoundError` of line 31, `NoImagesFound` is the
`ValueError` of line 72, and `ZeroDivisionError` is the unguarded
`math.ceil(num_images / cols)` of line 49 when `cols = 0`. -/
inductive AtlasError where
  | DirectoryNotFound
  | NoImagesFound
  | ZeroDivisionError
deriving Repr, DecidableEq

/-- `get_image_files` (imgss.py lines 26–38): raise if the directory does not
exist, else filter the listing by supported extension, join with the input
directory and sort.  Python's `sorted` is modelled by `List.insertionSort`
(both are deterministic sorts by `≤`; only sortedness and the multiset of
elements matter to the callers). -/
def get_image_files (input_dir : String) (fs : Option (List String)) :
    Except AtlasError (List String) :=
  match fs with
  | none => .error .DirectoryNotFound
  | some entries =>
      .ok (@List.insertionSort String (· ≤ ·) decStrLe
        ((entries.filter (fun f => is_supported_file f)).map
          (fun f => path_join input_dir f)))

/-- `calculate_grid_size` (imgss.py lines 40–51).

Python computes `cols = math.floor(math.sqrt((atlas_width / sprite_width) *
num_images))` with real (float) division and square root; over the exact
reals `⌊Real.sqrt x⌋₊ = Nat.sqrt ⌊x⌋₊` (proved below as
`natFloor_real_sqrt`), and `⌊(aw / sw) * n⌋₊ = aw * n / sw` in `Nat`, which
gives the executable form used here.  `rows = math.ceil(num_images / cols)`
raises `ZeroDivisionError` when `cols = 0` (there is no `max(cols, 1)`
guard in the source), modelled by `none`. -/
def calculate_grid_size (g : ImageAtlasGenerator) (num_images : Nat) :
    Option (Nat × Nat) :=
  if num_images = 0 then some (1, 1)
  else
    let cols := Nat.sqrt (g.atlas_width * num_images / g.sprite_width)
    if cols = 0 then none
    else some (cols, (⌈(num_images : ℚ) / (cols : ℚ)⌉).toNat)

/-- `resize_image_to_fit` (imgss.py lines 53–65): the new size of an image of
pixel dimensions `w × h` scaled uniformly by
`scale = min(cell_width / w, cell_height / h)`; Python's `int(...)`
truncates, which on these nonnegative values is `⌊·⌋₊`.  (A decoded PIL
image always has `w, h ≥ 1`; theorems assume this where they need it.) -/
def resize_image_to_fit (w h cell_width cell_height : Nat) : Nat × Nat :=
  let scale : ℚ := min ((cell_width : ℚ) / (w : ℚ)) ((cell_height : ℚ) / (h : ℚ))
  (⌊(w : ℚ) * scale⌋₊, ⌊(h : ℚ) * scale⌋₊)

/-- A composite onto the atlas canvas: `atlas.paste(resized_img, (paste_x,
paste_y), resized_img)` (imgss.py line 121), recorded as position and pasted
size. -/
structure PasteOp where
  px : Int
  py : Int
  w : Nat
  h : Nat
deriving Repr, DecidableEq

/-- One entry of `atlas_mapping` (imgss.py lines 125–135). -/
structure PlacementRecord where
  filename : String
  x : Int
  y : Int
  width : Nat
  height : Nat
  cell_x : Nat
  cell_y : Nat
  cell_width : Nat
  cell_height : Nat
  original_size : Nat × Nat
deriving Repr, DecidableEq

/-- The per-image placement computation of the loop body (imgss.py lines
97–135) for the image at 0-based index `i` with decoded pixel dimensions
`w × h`: grid position, cell origin, scaled size, centered paste position
(Python `//` on these nonnegative integers is `Int.fdiv`), the paste onto the
canvas, and the `atlas_mapping` entry keyed by the file's basename. -/
def placeImage (g : ImageAtlasGenerator) (cols i : Nat) (path : String)
    (w h : Nat) : PasteOp × PlacementRecord :=
  let col := i % cols
  let row := i / cols
  let x := col * g.sprite_width
  let y := row * g.sprite_height
  let nwh := resize_image_to_fit w h g.sprite_width g.sprite_height
  let paste_x : Int := (x : Int) + ((g.sprite_width : Int) - (nwh.1 : Int)).fdiv 2
  let paste_y : Int := (y : Int) + ((g.sprite_height : Int) - (nwh.2 : Int)).fdiv 2
  (⟨paste_x, paste_y, nwh.1, nwh.2⟩,
   { filename := basename path
     x := paste_x
     y := paste_y
     width := nwh.1
     height := nwh.2
     cell_x := x
     cell_y := y
     cell_width := g.sprite_width
     cell_height := g.sprite_height
     original_size := (w, h) })

/-- Oracle describing what happens to one input file inside the `try` block of
the loop (imgss.py lines 96–139): it either processes fully with decoded
dimensions `w × h` (`ok`), or some step raises before the `atlas.paste` of
line 121 (`failBeforePaste`, e.g. a decode error at `Image.open`), or a step
raises after the paste but before the mapping entry is stored
(`failAfterPaste`). -/
inductive ImageOutcome where
  | ok (w h : Nat)
  | failBeforePaste
  | failAfterPaste (w h : Nat)
deriving Repr, DecidableEq

/-- Whether the per-image body ran to completion. -/
def ImageOutcome.isOk : ImageOutcome → Bool
  | .ok _ _ => true
  | _ => false

/-- The loop body for one file (imgss.py lines 96–139): the pastes performed
on the canvas and the mapping entry stored, under the given outcome; the
`except` clause of line 137 turns any raise into a skip. -/
def processImage (g : ImageAtlasGenerator) (cols i : Nat) (path : String) :
    ImageOutcome → List PasteOp × Option PlacementRecord
  | .ok w h => ([(placeImage g cols i path w h).1], some (placeImage g cols i path w h).2)
  | .failBeforePaste => ([], none)
  | .failAfterPaste w h => ([(placeImage g cols i path w h).1], none)

/-- `atlas_mapping[filename] = {...}` (imgss.py line 125): Python dict
assignment — an existing key keeps its position and gets the new value, a new
key is appended. -/
def insertRecord (m : List PlacementRecord) (r : PlacementRecord) :
    List PlacementRecord :=
  if m.any (fun q => q.filename == r.filename) then
    m.map (fun q => if q.filename == r.filename then r else q)
  else m ++ [r]

/-- The `for i, image_path in enumerate(image_files)` loop (imgss.py lines
95–139), accumulating the canvas pastes and the `atlas_mapping`. -/
def atlasLoop (g : ImageAtlasGenerator) (cols : Nat)
    (outcome : String → ImageOutcome) :
    Nat → List String → List PasteOp → List PlacementRecord →
      List PasteOp × List PlacementRecord
  | _, [], pastes, mapping => (pastes, mapping)
  | i, p :: rest, pastes, mapping =>
      atlasLoop g cols outcome (i + 1) rest
        (pastes ++ (processImage g cols i p (outcome p)).1)
        (match (processImage g cols i p (outcome p)).2 with
         | some r => insertRecord mapping r
         | none => mapping)

/-- `create_atlas` (imgss.py lines 67–145): enumerate, reject an empty list,
plan the grid (whose `rows` value is only printed), and run the loop.  The
returned pair is the canvas contents (as the list of performed pastes) and
`atlas_mapping`. -/
def create_atlas (g : ImageAtlasGenerator) (fs : Option (List String))
    (outcome : String → ImageOutcome) :
    Except AtlasError (List PasteOp × List PlacementRecord) :=
  match get_image_files g.input_dir fs with
  | .error e => .error e
  | .ok files =>
      if files = [] then .error .NoImagesFound
      else
        match calculate_grid_size g files.length with
        | none => .error .ZeroDivisionError
        | some cr => .ok (atlasLoop g cr.1 outcome 0 files [] [])

/-- The pastes the loop performs on the canvas, starting at index `i`
(specification of the first component of `atlasLoop`). -/
def pastesOf (g : ImageAtlasGenerator) (cols : Nat)
    (outcome : String → ImageOutcome) : Nat → List String → List PasteOp
  | _, [] => []
  | i, p :: rest =>
      (processImage g cols i p (outcome p)).1 ++ pastesOf g cols outcome (i + 1) rest

/-- The mapping entries the loop stores, starting at index `i` (specification
of the second component of `atlasLoop` when basenames are distinct). -/
def recordsOf (g : ImageAtlasGenerator) (cols : Nat)
    (outcome : String → ImageOutcome) : Nat → List String → List PlacementRecord
  | _, [] => []
  | i, p :: rest =>
      (match (processImage g cols i p (outcome p)).2 with
       | some r => [r]
       | none => []) ++ recordsOf g cols outcome (i + 1) rest

/-- The atlas output path (imgss.py line 142):
`output_path + ("" if output_path.endswith("/") else "/") + output_name +
"-atlus.png"`. -/
def atlas_save_path (g : ImageAtlasGenerator) : String :=
  g.output_path ++ (if ends_with_slash g.output_path then "" else "/") ++
    g.output_name ++ "-atlus.png"

/-- The path `save_mapping_file` writes to (imgss.py lines 147–150): the
explicit `--mapping` argument if given, else
`os.path.splitext(self.output_path)[0] + '_mapping.txt'`. -/
def save_mapping_file_path (g : ImageAtlasGenerator)
    (mapping_path : Option String) : String :=
  match mapping_path with
  | some p => p
  | none => (splitext g.output_path).1 ++ "_mapping.txt"

/-- Modelled from the spec's words for claim C3 (§4.4, §6): the default
mapping path is "the atlas output path with its extension replaced by
`_mapping.txt`", where the atlas output path is
`{output_path}/{output_name}-atlus.png`. -/
def spec_mapping_path (g : ImageAtlasGenerator) : String :=
  (splitext (atlas_save_path g)).1 ++ "_mapping.txt"

/-- Modelled from the spec's words for claim C2 (§4.3 step 3): new size =
`round(imgWidth*scale), round(imgHeight*scale)` — nearest-integer rounding of
the uniformly scaled dimensions (Mathlib's `round`; ties do not arise in the
comparisons below). -/
def resize_spec (w h cell_width cell_height : Nat) : Int × Int :=
  let scale : ℚ := min ((cell_width : ℚ) / (w : ℚ)) ((cell_height : ℚ) / (h : ℚ))
  (round ((w : ℚ) * scale), round ((h : ℚ) * scale))

/-- A concrete generator configuration (the CLI defaults: sprite 32×32,
atlas 512×512), used to instantiate theorems with hypotheses. -/
def sampleGen : ImageAtlasGenerator :=
  { input_dir := "imgs"
    output_path := "out"
    output_name := "game"
    sprite_width := 32
    sprite_height := 32
    atlas_width := 512
    atlas_height := 512 }

/-! Arithmetic helper lemmas. -/

/-- Over the reals, flooring a square root commutes with flooring the
radicand: `⌊√x⌋₊ = Nat.sqrt ⌊x⌋₊`.  This justifies the executable form of
`calculate_grid_size`. -/
theorem natFloor_real_sqrt (x : ℝ) (hx : 0 ≤ x) :
    ⌊Real.sqrt x⌋₊ = Nat.sqrt ⌊x⌋₊ := by
  apply le_antisymm
  · rw [Nat.le_sqrt]
    apply Nat.le_floor
    push_cast
    calc ((⌊Real.sqrt x⌋₊ : ℝ) * (⌊Real.sqrt x⌋₊ : ℝ))
        ≤ Real.sqrt x * Real.sqrt x :=
          mul_le_mul (Nat.floor_le (Real.sqrt_nonneg x))
            (Nat.floor_le (Real.sqrt_nonneg x)) (by positivity) (Real.sqrt_nonneg x)
      _ = x := Real.mul_self_sqrt hx
  · apply Nat.le_floor
    rw [Real.le_sqrt (by positivity) hx]
    calc ((Nat.sqrt ⌊x⌋₊ : ℝ)) ^ 2 = ((Nat.sqrt ⌊x⌋₊ * Nat.sqrt ⌊x⌋₊ : ℕ) : ℝ) := by
          push_cast; ring
      _ ≤ ((⌊x⌋₊ : ℕ) : ℝ) := by exact_mod_cast Nat.sqrt_le _
      _ ≤ x := Nat.floor_le hx

/-- The `cols` value computed by `calculate_grid_size` equals the spec's
formula `floor(sqrt((atlasWidth / spriteWidth) * imageCount))` over the
reals. -/
theorem cols_eq_spec_formula (g : ImageAtlasGenerator) (n : Nat) :
    Nat.sqrt (g.atlas_width * n / g.sprite_width)
      = ⌊Real.sqrt (((g.atlas_width : ℝ) / (g.sprite_width : ℝ)) * (n : ℝ))⌋₊ := by
  have hx : (0 : ℝ) ≤ ((g.atlas_width : ℝ) / (g.sprite_width : ℝ)) * (n : ℝ) := by
    positivity
  rw [natFloor_real_sqrt _ hx]
  congr 1
  have hrw : ((g.atlas_width : ℝ) / (g.sprite_width : ℝ)) * (n : ℝ)
      = ((g.atlas_width * n : ℕ) : ℝ) / ((g.sprite_width : ℕ) : ℝ) := by
    push_cast; ring
  rw [hrw, Nat.floor_div_nat, Nat.floor_natCast]

/-- The scaled dimensions never exceed the cell dimensions — truncation makes
the bound hold even when the scale factor exceeds 1. -/
theorem resize_le_cell (w h cw ch : Nat) (hw : 0 < w) (hh : 0 < h) :
    (resize_image_to_fit w h cw ch).1 ≤ cw ∧
      (resize_image_to_fit w h cw ch).2 ≤ ch := by
  have hw0 : (0 : ℚ) < (w : ℚ) := by exact_mod_cast hw
  have hh0 : (0 : ℚ) < (h : ℚ) := by exact_mod_cast hh
  constructor
  · have h1 : (w : ℚ) * min ((cw : ℚ) / (w : ℚ)) ((ch : ℚ) / (h : ℚ)) ≤ (cw : ℚ) := by
      calc (w : ℚ) * min ((cw : ℚ) / (w : ℚ)) ((ch : ℚ) / (h : ℚ))
          ≤ (w : ℚ) * ((cw : ℚ) / (w : ℚ)) :=
            mul_le_mul_of_nonneg_left (min_le_left _ _) (le_of_lt hw0)
        _ = (cw : ℚ) := by field_simp
    calc (resize_image_to_fit w h cw ch).1 ≤ ⌊(cw : ℚ)⌋₊ := Nat.floor_mono h1
      _ = cw := Nat.floor_natCast cw
  · have h1 : (h : ℚ) * min ((cw : ℚ) / (w : ℚ)) ((ch : ℚ) / (h : ℚ)) ≤ (ch : ℚ) := by
      calc (h : ℚ) * min ((cw : ℚ) / (w : ℚ)) ((ch : ℚ) / (h : ℚ))
          ≤ (h : ℚ) * ((ch : ℚ) / (h : ℚ)) :=
            mul_le_mul_of_nonneg_left (min_le_right _ _) (le_of_lt hh0)
        _ = (ch : ℚ) := by field_simp
    calc (resize_image_to_fit w h cw ch).2 ≤ ⌊(ch : ℚ)⌋₊ := Nat.floor_mono h1
      _ = ch := Nat.floor_natCast ch

/-- `Int.fdiv` on natural numbers is natural division. -/
theorem fdiv_natCast (a b : Nat) :
    ((a : Int)).fdiv (b : Int) = ((a / b : Nat) : Int) :=
  (Int.ofNat_fdiv a b).symm

/-! Structural lemmas about the compositing loop. -/

/-- A stored mapping entry is keyed by the basename of its file. -/
theorem processImage_filename (g : ImageAtlasGenerator) (cols i : Nat)
    (p : String) (o : ImageOutcome) (r : PlacementRecord)
    (h : (processImage g cols i p o).2 = some r) : r.filename = basename p := by
  cases o with
  | ok w h' =>
      simp only [processImage, Option.some.injEq] at h
      subst h
      rfl
  | failBeforePaste => simp [processImage] at h
  | failAfterPaste w h' => simp [processImage] at h

/-- Dict assignment with a fresh key appends. -/
theorem insertRecord_of_not_mem (m : List PlacementRecord) (r : PlacementRecord)
    (h : r.filename ∉ m.map PlacementRecord.filename) :
    insertRecord m r = m ++ [r] := by
  rw [insertRecord, if_neg]
  intro hc
  rw [List.any_eq_true] at hc
  obtain ⟨q, hq, hqe⟩ := hc
  rw [beq_iff_eq] at hqe
  exact h (List.mem_map.mpr ⟨q, hq, hqe⟩)

/-- Characterization of the compositing loop: when the basenames of the
remaining files are distinct and none of them is already a key of the
accumulated mapping, the loop appends exactly the pastes and the records of
the remaining files. -/
theorem atlasLoop_eq (g : ImageAtlasGenerator) (cols : Nat)
    (outcome : String → ImageOutcome) :
    ∀ (files : List String) (i : Nat) (pastes : List PasteOp)
      (mapping : List PlacementRecord),
      (files.map basename).Nodup →
      (∀ q ∈ mapping, q.filename ∉ files.map basename) →
      atlasLoop g cols outcome i files pastes mapping
        = (pastes ++ pastesOf g cols outcome i files,
           mapping ++ recordsOf g cols outcome i files)
  | [], i, pastes, mapping, _, _ => by
      simp [atlasLoop, pastesOf, recordsOf]
  | p :: rest, i, pastes, mapping, hnd, hm => by
      rw [List.map_cons, List.nodup_cons] at hnd
      obtain ⟨hp, hnd'⟩ := hnd
      have hm' : ∀ q ∈ mapping, q.filename ∉ rest.map basename := by
        intro q hq hc
        exact hm q hq (by rw [List.map_cons]; exact List.mem_cons_of_mem _ hc)
      cases ho : outcome p with
      | ok w h =>
          have hfn : (placeImage g cols i p w h).2.filename = basename p := rfl
          have hnotin : (placeImage g cols i p w h).2.filename ∉
              mapping.map PlacementRecord.filename := by
            rw [hfn]
            intro hc
            obtain ⟨q, hq, hqe⟩ := List.mem_map.mp hc
            exact hm q hq (by rw [List.map_cons, hqe]; exact List.mem_cons_self _ _)
          have hm'' : ∀ q ∈ mapping ++ [(placeImage g cols i p w h).2],
              q.filename ∉ rest.map basename := by
            intro q hq
            rcases List.mem_append.mp hq with hq | hq
            · exact hm' q hq
            · rw [List.mem_singleton.mp hq, hfn]; exact hp
          simp only [atlasLoop, ho, processImage]
          rw [insertRecord_of_not_mem _ _ hnotin,
            atlasLoop_eq g cols outcome rest (i + 1) _ _ hnd' hm'']
          simp [pastesOf, recordsOf, ho, processImage]
      | failBeforePaste =>
          simp only [atlasLoop, ho, processImage, List.append_nil]
          rw [atlasLoop_eq g cols outcome rest (i + 1) _ _ hnd' hm']
          simp [pastesOf, recordsOf, ho, processImage]
      | failAfterPaste w h =>
          simp only [atlasLoop, ho, processImage]
          rw [atlasLoop_eq g cols outcome rest (i + 1) _ _ hnd' hm']
          simp [pastesOf, recordsOf, ho, processImage]

/-- `create_atlas` on an existing, non-empty, grid-plannable input returns
exactly the pastes and records of the enumerated files. -/
theorem create_atlas_ok (g : ImageAtlasGenerator) (entries files : List String)
    (outcome : String → ImageOutcome) (cols rows : Nat)
    (hfiles : get_image_files g.input_dir (some entries) = .ok files)
    (hne : files ≠ [])
    (hgrid : calculate_grid_size g files.length = some (cols, rows))
    (hnd : (files.map basename).Nodup) :
    create_atlas g (some entries) outcome
      = .ok (pastesOf g cols outcome 0 files, recordsOf g cols outcome 0 files) := by
  rw [create_atlas, hfiles]
  simp only [if_neg hne, hgrid]
  rw [atlasLoop_eq g cols outcome files 0 [] [] hnd (by simp)]
  simp

/-- The number of stored mapping entries is the number of fully processed
files. -/
theorem recordsOf_length (g : ImageAtlasGenerator) (cols : Nat)
    (outcome : String → ImageOutcome) :
    ∀ (files : List String) (i : Nat),
      (recordsOf g cols outcome i files).length
        = files.countP (fun p => (outcome p).isOk)
  | [], _ => by simp [recordsOf]
  | p :: rest, i => by
      rw [List.countP_cons]
      cases ho : outcome p <;>
        simp [recordsOf, processImage, ho, ImageOutcome.isOk,
          recordsOf_length g cols outcome rest (i + 1), Nat.add_comm]

/-- The mapping keys are the basenames of the fully processed files, in
order. -/
theorem recordsOf_map_filename (g : ImageAtlasGenerator) (cols : Nat)
    (outcome : String → ImageOutcome) :
    ∀ (files : List String) (i : Nat),
      (recordsOf g cols outcome i files).map PlacementRecord.filename
        = (files.filter (fun p => (outcome p).isOk)).map basename
  | [], _ => by simp [recordsOf]
  | p :: rest, i => by
      cases ho : outcome p <;>
        simp [recordsOf, processImage, ho, ImageOutcome.isOk, List.filter_cons,
          recordsOf_map_filename g cols outcome rest (i + 1)]
      rfl

/-- The record of the `j`-th remaining file (when it processes fully) is
stored in the mapping, placed with loop index `i + j`. -/
theorem recordsOf_mem (g : ImageAtlasGenerator) (cols : Nat)
    (outcome : String → ImageOutcome) :
    ∀ (files : List String) (i j : Nat) (p : String) (w h : Nat),
      files.get? j = some p → outcome p = .ok w h →
      (placeImage g cols (i + j) p w h).2 ∈ recordsOf g cols outcome i files
  | [], _, j, p, w, h, hj, _ => by simp at hj
  | q :: rest, i, 0, p, w, h, hj, ho => by
      simp only [List.get?] at hj
      obtain rfl : q = p := by injection hj
      simp [recordsOf, processImage, ho]
  | q :: rest, i, j + 1, p, w, h, hj, ho => by
      simp only [List.get?] at hj
      have := recordsOf_mem g cols outcome rest (i + 1) j p w h hj ho
      rw [show i + 1 + j = i + (j + 1) by omega] at this
      cases hq : outcome q <;>
        simp [recordsOf, processImage, hq, this]

/-- The paste of the `j`-th remaining file is performed on the canvas even
when its processing fails after the paste. -/
theorem pastesOf_mem_of_failAfterPaste (g : ImageAtlasGenerator) (cols : Nat)
    (outcome : String → ImageOutcome) :
    ∀ (files : List String) (i j : Nat) (p : String) (w h : Nat),
      files.get? j = some p → outcome p = .failAfterPaste w h →
      (placeImage g cols (i + j) p w h).1 ∈ pastesOf g cols outcome i files
  | [], _, j, p, w, h, hj, _ => by simp at hj
  | q :: rest, i, 0, p, w, h, hj, ho => by
      simp only [List.get?] at hj
      obtain rfl : q = p := by injection hj
      simp [pastesOf, processImage, ho]
  | q :: rest, i, j + 1, p, w, h, hj, ho => by
      simp only [List.get?] at hj
      have := pastesOf_mem_of_failAfterPaste g cols outcome rest (i + 1) j p w h hj ho
      rw [show i + 1 + j = i + (j + 1) by omega] at this
      cases hq : outcome q <;>
        simp [pastesOf, processImage, hq, this]

/-- The centering offset `(c - n) // 2` (Python floor division) as a natural
number, for `n ≤ c`. -/
theorem center_fdiv_eq (c n : Nat) (hn : n ≤ c) :
    ((c : Int) - (n : Int)).fdiv 2 = (((c - n) / 2 : Nat) : Int) := by
  rw [← Nat.cast_sub hn, show (2 : Int) = ((2 : Nat) : Int) from rfl,
    fdiv_natCast]

/-- On the reachable (nonnegative) numerators, Python's floor division
coincides with truncating division. -/
theorem center_tdiv_eq (c n : Nat) (hn : n ≤ c) :
    ((c : Int) - (n : Int)).tdiv 2 = (((c - n) / 2 : Nat) : Int) := by
  rw [← Nat.cast_sub hn, show (2 : Int) = ((2 : Nat) : Int) from rfl,
    ← Int.ofNat_tdiv]

/-- Explicit form of the placement record: all coordinates are natural
numbers (the centering offsets are nonnegative because the scaled size fits
the cell). -/
theorem placeImage_repr (g : ImageAtlasGenerator) (cols i : Nat) (path : String)
    (w h : Nat) (hw : 0 < w) (hh : 0 < h) :
    (placeImage g cols i path w h).2
      = { filename := basename path
          x := ((i % cols * g.sprite_width
            + (g.sprite_width
                - (resize_image_to_fit w h g.sprite_width g.sprite_height).1) / 2
            : Nat) : Int)
          y := ((i / cols * g.sprite_height
            + (g.sprite_height
                - (resize_image_to_fit w h g.sprite_width g.sprite_height).2) / 2
            : Nat) : Int)
          width := (resize_image_to_fit w h g.sprite_width g.sprite_height).1
          height := (resize_image_to_fit w h g.sprite_width g.sprite_height).2
          cell_x := i % cols * g.sprite_width
          cell_y := i / cols * g.sprite_height
          cell_width := g.sprite_width
          cell_height := g.sprite_height
          original_size := (w, h) } := by
  obtain ⟨hw1, hh1⟩ := resize_le_cell w h g.sprite_width g.sprite_height hw hh
  simp only [placeImage, PlacementRecord.mk.injEq, and_true, true_and]
  refine ⟨?_, ?_⟩
  · rw [center_fdiv_eq _ _ hw1]
    push_cast
    ring
  · rw [center_fdiv_eq _ _ hh1]
    push_cast
    ring

/-- The count of fully processed files plus the count of failing files is the
file count. -/
theorem countP_isOk_add (outcome : String → ImageOutcome) :
    ∀ files : List String,
      files.countP (fun p => (outcome p).isOk)
          + files.countP (fun p => !(outcome p).isOk)
        = files.length
  | [] => rfl
  | p :: rest => by
      rw [List.countP_cons, List.countP_cons, List.length_cons]
      have := countP_isOk_add outcome rest
      cases (outcome p).isOk <;> simp <;> omega

/-! Claim theorems. -/

/-- C1, counterexample: with `sprite_width = 512`, `atlas_width = 32` and a
single image, the Grid Planner computes `columns = floor(sqrt(32/512)) = 0`
and the subsequent `rows = ceil(1 / 0)` raises `ZeroDivisionError` — so it
does not return `columns ≥ 1` for every positive configuration. -/
theorem c1_counterexample :
    calculate_grid_size
        { input_dir := "imgs", output_path := "out", output_name := "game",
          sprite_width := 512, sprite_height := 512,
          atlas_width := 32, atlas_height := 32 } 1 = none
    ∧ ¬ ∃ cols rows, calculate_grid_size
        { input_dir := "imgs", output_path := "out", output_name := "game",
          sprite_width := 512, sprite_height := 512,
          atlas_width := 32, atlas_height := 32 } 1 = some (cols, rows) := by
  have h : calculate_grid_size
      { input_dir := "imgs", output_path := "out", output_name := "game",
        sprite_width := 512, sprite_height := 512,
        atlas_width := 32, atlas_height := 32 } 1 = none := by
    simp only [calculate_grid_size]
    norm_num
  refine ⟨h, ?_⟩
  rintro ⟨cols, rows, hc⟩
  rw [h] at hc
  exact Option.noConfusion hc

/-- C1 (amended): the Grid Planner has no `max(columns, 1)` guard, and for
`atlas_width * N < sprite_width` it computes `columns = 0` and crashes with
`ZeroDivisionError` (see the counterexample).  Whenever
`sprite_width ≤ atlas_width * N` (in particular whenever
`atlas_width ≥ sprite_width`, for every `N ≥ 1`), the computed `columns` is
`≥ 1` and `rows = ceil(N / columns)` is well defined. -/
theorem c1_columns_pos (g : ImageAtlasGenerator) (n : Nat) (hn : 0 < n)
    (hsw : 0 < g.sprite_width) (hguard : g.sprite_width ≤ g.atlas_width * n) :
    ∃ cols rows, calculate_grid_size g n = some (cols, rows)
      ∧ 1 ≤ cols ∧ (rows : Int) = ⌈(n : ℚ) / (cols : ℚ)⌉ := by
  have hcols : 0 < Nat.sqrt (g.atlas_width * n / g.sprite_width) := by
    rw [Nat.sqrt_pos]
    exact Nat.div_pos hguard hsw
  have hn' : ¬ n = 0 := by omega
  have hc' : ¬ Nat.sqrt (g.atlas_width * n / g.sprite_width) = 0 := by omega
  refine ⟨Nat.sqrt (g.atlas_width * n / g.sprite_width),
    (⌈(n : ℚ) / ((Nat.sqrt (g.atlas_width * n / g.sprite_width) : Nat) : ℚ)⌉).toNat,
    ?_, hcols, ?_⟩
  · simp [calculate_grid_size, hn', hc']
  · rw [Int.toNat_of_nonneg]
    exact Int.ceil_nonneg (by positivity)

/-- C1 witness: the default configuration (sprite 32×32, atlas 512×512) with
4 images satisfies the guard, and the planner returns `columns ≥ 1`. -/
theorem c1_columns_pos_witness :
    0 < 4 ∧ 0 < sampleGen.sprite_width
      ∧ sampleGen.sprite_width ≤ sampleGen.atlas_width * 4
      ∧ ∃ cols rows, calculate_grid_size sampleGen 4 = some (cols, rows)
          ∧ 1 ≤ cols ∧ (rows : Int) = ⌈(4 : ℚ) / (cols : ℚ)⌉ :=
  ⟨by decide, by decide, by decide,
    c1_columns_pos sampleGen 4 (by decide) (by decide) (by decide)⟩

/-- C4: the Grid Planner returns `(1, 1)` for zero images; otherwise, whenever
it returns at all (`columns ≠ 0`, cf. C1), the returned `columns` equals the
spec's real-arithmetic formula `floor(sqrt((atlasWidth / spriteWidth) * N))`
and `rows = ceil(N / columns)`; for 4 images with sprite 32×32 and atlas
512×512 the result is `(8, 1)`. -/
theorem c4_grid_formula (g : ImageAtlasGenerator) (n cols rows : Nat)
    (hsome : calculate_grid_size g n = some (cols, rows)) (hn : 0 < n) :
    (cols = ⌊Real.sqrt (((g.atlas_width : ℝ) / (g.sprite_width : ℝ)) * (n : ℝ))⌋₊
      ∧ (rows : Int) = ⌈(n : ℚ) / (cols : ℚ)⌉)
    ∧ calculate_grid_size g 0 = some (1, 1)
    ∧ calculate_grid_size sampleGen 4 = some (8, 1) := by
  have hex : calculate_grid_size sampleGen 4 = some (8, 1) := by
    simp only [calculate_grid_size, sampleGen]
    norm_num
    rw [show (⌈(1 : ℚ) / 2⌉ : Int) = 1 from by
      rw [Int.ceil_eq_iff]; norm_num]
    rfl
  have hn' : ¬ n = 0 := by omega
  simp only [calculate_grid_size, if_neg hn'] at hsome
  split at hsome
  · exact absurd hsome (by simp)
  · rename_i hc
    rw [Option.some.injEq, Prod.mk.injEq] at hsome
    obtain ⟨hcols, hrows⟩ := hsome
    subst hcols
    refine ⟨⟨(cols_eq_spec_formula g n).symm ▸ rfl, ?_⟩, by simp [calculate_grid_size], hex⟩
    rw [← hrows, Int.toNat_of_nonneg]
    exact Int.ceil_nonneg (by positivity)

/-- C4 witness: instantiated at the spec's own example (4 images, sprite
32×32, atlas 512×512 — columns 8, rows 1). -/
theorem c4_grid_formula_witness :
    calculate_grid_size sampleGen 4 = some (8, 1) ∧ 0 < 4
      ∧ (((8 : Nat)
            = ⌊Real.sqrt (((sampleGen.atlas_width : ℝ)
                / (sampleGen.sprite_width : ℝ)) * (4 : ℝ))⌋₊
          ∧ ((1 : Nat) : Int) = ⌈(4 : ℚ) / ((8 : Nat) : ℚ)⌉)
        ∧ calculate_grid_size sampleGen 0 = some (1, 1)
        ∧ calculate_grid_size sampleGen 4 = some (8, 1)) := by
  have hex : calculate_grid_size sampleGen 4 = some (8, 1) := by
    simp only [calculate_grid_size, sampleGen]
    norm_num
    rw [show (⌈(1 : ℚ) / 2⌉ : Int) = 1 from by
      rw [Int.ceil_eq_iff]; norm_num]
    rfl
  exact ⟨hex, by decide, c4_grid_formula sampleGen 4 8 1 hex (by decide)⟩

/-- C2, counterexample: a 7×5 image in a 32×32 cell has
`scale = 32/7` and scaled height `5 · 32/7 = 160/7 ≈ 22.857`; the code's
`int(...)` truncates to 22, while the claimed nearest-integer rounding gives
23. -/
theorem c2_counterexample :
    resize_image_to_fit 7 5 32 32 = (32, 22)
    ∧ resize_spec 7 5 32 32 = (32, 23)
    ∧ (((resize_image_to_fit 7 5 32 32).2 : Int) ≠ (resize_spec 7 5 32 32).2) := by
  have h1 : resize_image_to_fit 7 5 32 32 = (32, 22) := by
    simp only [resize_image_to_fit]
    norm_num [min_def]
    rw [Nat.floor_eq_iff] <;> norm_num
  have h2 : resize_spec 7 5 32 32 = (32, 23) := by
    simp only [resize_spec]
    norm_num [min_def, round_eq]
  refine ⟨h1, h2, ?_⟩
  rw [h1, h2]
  decide

/-- C2 (amended): the scaled size recorded and used for pasting truncates
(Python `int(...)`, i.e. floor on these nonnegative values) rather than
rounding to nearest: it equals `(cellWidth, (imgHeight*cellWidth)/imgWidth)`
when the width is the binding dimension (`cellWidth*imgHeight ≤
cellHeight*imgWidth`) and `((imgWidth*cellHeight)/imgHeight, cellHeight)`
otherwise, with `/` truncating integer division. -/
theorem c2_resize_truncates (w h cw ch : Nat) (hw : 0 < w) (hh : 0 < h) :
    resize_image_to_fit w h cw ch
      = if cw * h ≤ ch * w then (cw, h * cw / w) else (w * ch / h, ch) := by
  have hw0 : (0 : ℚ) < (w : ℚ) := by exact_mod_cast hw
  have hh0 : (0 : ℚ) < (h : ℚ) := by exact_mod_cast hh
  have hw' : (w : ℚ) ≠ 0 := ne_of_gt hw0
  have hh' : (h : ℚ) ≠ 0 := ne_of_gt hh0
  rw [resize_image_to_fit]
  by_cases hc : cw * h ≤ ch * w
  · have hmin : min ((cw : ℚ) / (w : ℚ)) ((ch : ℚ) / (h : ℚ))
        = (cw : ℚ) / (w : ℚ) := by
      apply min_eq_left
      rw [div_le_div_iff₀ hw0 hh0]
      exact_mod_cast hc
    rw [if_pos hc, hmin, Prod.mk.injEq]
    constructor
    · rw [show (w : ℚ) * ((cw : ℚ) / (w : ℚ)) = (cw : ℚ) by field_simp]
      exact Nat.floor_natCast cw
    · rw [show (h : ℚ) * ((cw : ℚ) / (w : ℚ))
          = ((h * cw : ℕ) : ℚ) / ((w : ℕ) : ℚ) by push_cast; ring]
      rw [Nat.floor_div_nat, Nat.floor_natCast]
  · have hcc : ch * w ≤ cw * h := le_of_lt (lt_of_not_le hc)
    have hmin : min ((cw : ℚ) / (w : ℚ)) ((ch : ℚ) / (h : ℚ))
        = (ch : ℚ) / (h : ℚ) := by
      apply min_eq_right
      rw [div_le_div_iff₀ hh0 hw0]
      exact_mod_cast hcc
    rw [if_neg hc, hmin, Prod.mk.injEq]
    constructor
    · rw [show (w : ℚ) * ((ch : ℚ) / (h : ℚ))
          = ((w * ch : ℕ) : ℚ) / ((h : ℕ) : ℚ) by push_cast; ring]
      rw [Nat.floor_div_nat, Nat.floor_natCast]
    · rw [show (h : ℚ) * ((ch : ℚ) / (h : ℚ)) = (ch : ℚ) by field_simp]
      exact Nat.floor_natCast ch

/-- C2 witness: the truncating form evaluated at the 7×5 image in a 32×32
cell. -/
theorem c2_resize_truncates_witness :
    0 < 7 ∧ 0 < 5
      ∧ resize_image_to_fit 7 5 32 32
          = if 32 * 5 ≤ 32 * 7 then ((32 : Nat), 5 * 32 / 7)
            else (7 * 32 / 5, 32) :=
  ⟨by decide, by decide, c2_resize_truncates 7 5 32 32 (by decide) (by decide)⟩

/-- C3, counterexample: with `output_path = "out"` and
`output_name = "game"` the atlas is written to `out/game-atlus.png`, but the
default mapping path is built from `output_path` alone —
`splitext("out")[0] + "_mapping.txt" = "out_mapping.txt"` — not from the
atlas output path as the claim states (`out/game-atlus_mapping.txt`). -/
theorem c3_counterexample :
    atlas_save_path sampleGen = "out/game-atlus.png"
    ∧ save_mapping_file_path sampleGen none = "out_mapping.txt"
    ∧ spec_mapping_path sampleGen = "out/game-atlus_mapping.txt"
    ∧ save_mapping_file_path sampleGen none ≠ spec_mapping_path sampleGen := by
  refine ⟨by decide, by decide, by decide, ?_⟩
  intro hc
  rw [show save_mapping_file_path sampleGen none = "out_mapping.txt" from by decide,
    show spec_mapping_path sampleGen = "out/game-atlus_mapping.txt" from by decide]
    at hc
  exact absurd hc (by decide)

/-- Concatenating the two components of `splitext` recovers the path. -/
theorem splitext_append (s : String) :
    (splitext s).1 ++ (splitext s).2 = s := by
  rw [splitext]
  cases hd : rfindIdx? '.' (s.toList) with
  | none => simp
  | some d =>
      by_cases hc : (match rfindIdx? '/' (s.toList) with
          | none => 0
          | some i => i + 1) ≤ d
        ∧ (((s.toList).drop (match rfindIdx? '/' (s.toList) with
            | none => 0
            | some i => i + 1)).take
            (d - (match rfindIdx? '/' (s.toList) with
            | none => 0
            | some i => i + 1))).any (fun c => c ≠ '.')
      · simp only [hc, if_true]
        show (((s.toList).take d) ++ ((s.toList).drop d)).asString = s
        rw [List.take_append_drop]
        exact String.asString_toList s
      · simp only [hc, if_false]
        simp

/-- C3 (amended): when `--mapping` is not given, the mapping file is written
at `output_path` (the output directory argument) with its extension replaced
by `_mapping.txt` — not at the atlas output path
`{output_path}/{output_name}-atlus.png`; in particular, for an
extension-free `output_path` it is `output_path + "_mapping.txt"`.  An
explicit `--mapping` argument overrides the path. -/
theorem c3_mapping_path (g : ImageAtlasGenerator) :
    save_mapping_file_path g none
        = (splitext g.output_path).1 ++ "_mapping.txt"
    ∧ (splitext g.output_path).1 ++ (splitext g.output_path).2 = g.output_path
    ∧ ((splitext g.output_path).2 = "" →
        save_mapping_file_path g none = g.output_path ++ "_mapping.txt")
    ∧ (∀ p, save_mapping_file_path g (some p) = p) := by
  refine ⟨rfl, splitext_append g.output_path, ?_, fun p => rfl⟩
  intro hext
  have hroot : (splitext g.output_path).1 = g.output_path := by
    have := splitext_append g.output_path
    rw [hext] at this
    simpa using this
  rw [show save_mapping_file_path g none
      = (splitext g.output_path).1 ++ "_mapping.txt" from rfl, hroot]

/-- C3 witness: the amended path computation at the sample configuration
(`output_path = "out"`, no extension), with the inner hypotheses
discharged. -/
theorem c3_mapping_path_witness :
    (splitext sampleGen.output_path).2 = ""
    ∧ save_mapping_file_path sampleGen none
        = sampleGen.output_path ++ "_mapping.txt"
    ∧ save_mapping_file_path sampleGen (some "m.txt") = "m.txt" :=
  ⟨by decide, (c3_mapping_path sampleGen).2.2.1 (by decide),
    (c3_mapping_path sampleGen).2.2.2 "m.txt"⟩

/-- C5: for every placed image, `pasteX = cellOriginX + (cellWidth -
newWidth) // 2` — and since `newWidth ≤ cellWidth` always holds (so the
numerator is nonnegative), the floor division Python performs coincides with
truncating division, `pasteX - cellOriginX ≥ 0`, the scaled box fits the
cell (unconditionally, hence in particular when `scale ≤ 1`), the placement
is exactly centered (left margin = right margin) when `cellWidth - newWidth`
is even, and biased one pixel towards the origin when it is odd.  Same for
the Y axis. -/
theorem c5_centering (g : ImageAtlasGenerator) (cols i : Nat) (path : String)
    (w h : Nat) (hw : 0 < w) (hh : 0 < h) (r : PlacementRecord)
    (hr : (placeImage g cols i path w h).2 = r) :
    r.x = (r.cell_x : Int) + ((r.cell_width : Int) - (r.width : Int)).tdiv 2
    ∧ r.y = (r.cell_y : Int) + ((r.cell_height : Int) - (r.height : Int)).tdiv 2
    ∧ 0 ≤ r.x - (r.cell_x : Int)
    ∧ 0 ≤ r.y - (r.cell_y : Int)
    ∧ r.width ≤ r.cell_width
    ∧ r.height ≤ r.cell_height
    ∧ ((r.cell_width - r.width) % 2 = 0 →
        r.x - (r.cell_x : Int)
          = ((r.cell_x : Int) + (r.cell_width : Int)) - (r.x + (r.width : Int)))
    ∧ ((r.cell_width - r.width) % 2 = 1 →
        (r.x - (r.cell_x : Int)) + 1
          = ((r.cell_x : Int) + (r.cell_width : Int)) - (r.x + (r.width : Int))) := by
  obtain ⟨hw1, hh1⟩ := resize_le_cell w h g.sprite_width g.sprite_height hw hh
  subst hr
  rw [placeImage_repr g cols i path w h hw hh]
  dsimp only
  rw [center_tdiv_eq _ _ hw1, center_tdiv_eq _ _ hh1]
  generalize i % cols * g.sprite_width = A
  generalize i / cols * g.sprite_height = B
  omega

/-- C5 witness: a 16×24 image placed at index 0 of an 8-column grid with the
default 32×32 cells. -/
theorem c5_centering_witness :
    0 < 16 ∧ 0 < 24
    ∧ ((placeImage sampleGen 8 0 "imgs/a.png" 16 24).2.x
        = ((placeImage sampleGen 8 0 "imgs/a.png" 16 24).2.cell_x : Int)
          + (((placeImage sampleGen 8 0 "imgs/a.png" 16 24).2.cell_width : Int)
              - ((placeImage sampleGen 8 0 "imgs/a.png" 16 24).2.width : Int)).tdiv 2
      ∧ (placeImage sampleGen 8 0 "imgs/a.png" 16 24).2.y
        = ((placeImage sampleGen 8 0 "imgs/a.png" 16 24).2.cell_y : Int)
          + (((placeImage sampleGen 8 0 "imgs/a.png" 16 24).2.cell_height : Int)
              - ((placeImage sampleGen 8 0 "imgs/a.png" 16 24).2.height : Int)).tdiv 2
      ∧ 0 ≤ (placeImage sampleGen 8 0 "imgs/a.png" 16 24).2.x
          - ((placeImage sampleGen 8 0 "imgs/a.png" 16 24).2.cell_x : Int)
      ∧ 0 ≤ (placeImage sampleGen 8 0 "imgs/a.png" 16 24).2.y
          - ((placeImage sampleGen 8 0 "imgs/a.png" 16 24).2.cell_y : Int)
      ∧ (placeImage sampleGen 8 0 "imgs/a.png" 16 24).2.width
          ≤ (placeImage sampleGen 8 0 "imgs/a.png" 16 24).2.cell_width
      ∧ (placeImage sampleGen 8 0 "imgs/a.png" 16 24).2.height
          ≤ (placeImage sampleGen 8 0 "imgs/a.png" 16 24).2.cell_height
      ∧ (((placeImage sampleGen 8 0 "imgs/a.png" 16 24).2.cell_width
            - (placeImage sampleGen 8 0 "imgs/a.png" 16 24).2.width) % 2 = 0 →
          (placeImage sampleGen 8 0 "imgs/a.png" 16 24).2.x
              - ((placeImage sampleGen 8 0 "imgs/a.png" 16 24).2.cell_x : Int)
            = (((placeImage sampleGen 8 0 "imgs/a.png" 16 24).2.cell_x : Int)
                + ((placeImage sampleGen 8 0 "imgs/a.png" 16 24).2.cell_width : Int))
              - ((placeImage sampleGen 8 0 "imgs/a.png" 16 24).2.x
                + ((placeImage sampleGen 8 0 "imgs/a.png" 16 24).2.width : Int)))
      ∧ (((placeImage sampleGen 8 0 "imgs/a.png" 16 24).2.cell_width
            - (placeImage sampleGen 8 0 "imgs/a.png" 16 24).2.width) % 2 = 1 →
          ((placeImage sampleGen 8 0 "imgs/a.png" 16 24).2.x
              - ((placeImage sampleGen 8 0 "imgs/a.png" 16 24).2.cell_x : Int)) + 1
            = (((placeImage sampleGen 8 0 "imgs/a.png" 16 24).2.cell_x : Int)
                + ((placeImage sampleGen 8 0 "imgs/a.png" 16 24).2.cell_width : Int))
              - ((placeImage sampleGen 8 0 "imgs/a.png" 16 24).2.x
                + ((placeImage sampleGen 8 0 "imgs/a.png" 16 24).2.width : Int)))) :=
  ⟨by decide, by decide,
    c5_centering sampleGen 8 0 "imgs/a.png" 16 24 (by decide) (by decide) _ rfl⟩

/-- C9: the truncated scaled dimensions satisfy `newWidth ≤ cellWidth` and
`newHeight ≤ cellHeight` unconditionally — also when `scale > 1` — (and they
are natural numbers, so `0 ≤ newWidth/newHeight` holds by type); hence every
pasted rectangle lies inside its cell; `newWidth = 0` is possible for
extreme aspect ratios (a 1×1000 image in a 32×32 cell scales to 0×32). -/
theorem c9_fit_unconditional (w h cw ch : Nat) (hw : 0 < w) (hh : 0 < h)
    (g : ImageAtlasGenerator) (cols i : Nat) (path : String)
    (r : PlacementRecord) (hr : (placeImage g cols i path w h).2 = r) :
    ((resize_image_to_fit w h cw ch).1 ≤ cw
      ∧ (resize_image_to_fit w h cw ch).2 ≤ ch)
    ∧ ((r.cell_x : Int) ≤ r.x
      ∧ r.x + (r.width : Int) ≤ (r.cell_x : Int) + (r.cell_width : Int)
      ∧ (r.cell_y : Int) ≤ r.y
      ∧ r.y + (r.height : Int) ≤ (r.cell_y : Int) + (r.cell_height : Int))
    ∧ resize_image_to_fit 1 1000 32 32 = (0, 32) := by
  obtain ⟨hw1, hh1⟩ := resize_le_cell w h g.sprite_width g.sprite_height hw hh
  have hzero : resize_image_to_fit 1 1000 32 32 = (0, 32) := by
    simp only [resize_image_to_fit]
    norm_num [min_def]
  refine ⟨resize_le_cell w h cw ch hw hh, ?_, hzero⟩
  subst hr
  rw [placeImage_repr g cols i path w h hw hh]
  dsimp only
  generalize i % cols * g.sprite_width = A
  generalize i / cols * g.sprite_height = B
  omega

/-- C9 witness: the placement bounds at a 16×24 image, index 0, 8 columns,
default cells. -/
theorem c9_fit_unconditional_witness :
    0 < 16 ∧ 0 < 24
    ∧ (((resize_image_to_fit 16 24 32 32).1 ≤ 32
        ∧ (resize_image_to_fit 16 24 32 32).2 ≤ 32)
      ∧ (((placeImage sampleGen 8 0 "imgs/a.png" 16 24).2.cell_x : Int)
            ≤ (placeImage sampleGen 8 0 "imgs/a.png" 16 24).2.x
        ∧ (placeImage sampleGen 8 0 "imgs/a.png" 16 24).2.x
              + ((placeImage sampleGen 8 0 "imgs/a.png" 16 24).2.width : Int)
            ≤ ((placeImage sampleGen 8 0 "imgs/a.png" 16 24).2.cell_x : Int)
              + ((placeImage sampleGen 8 0 "imgs/a.png" 16 24).2.cell_width : Int)
        ∧ ((placeImage sampleGen 8 0 "imgs/a.png" 16 24).2.cell_y : Int)
            ≤ (placeImage sampleGen 8 0 "imgs/a.png" 16 24).2.y
        ∧ (placeImage sampleGen 8 0 "imgs/a.png" 16 24).2.y
              + ((placeImage sampleGen 8 0 "imgs/a.png" 16 24).2.height : Int)
            ≤ ((placeImage sampleGen 8 0 "imgs/a.png" 16 24).2.cell_y : Int)
              + ((placeImage sampleGen 8 0 "imgs/a.png" 16 24).2.cell_height : Int))
      ∧ resize_image_to_fit 1 1000 32 32 = (0, 32)) :=
  ⟨by decide, by decide,
    c9_fit_unconditional 16 24 32 32 (by decide) (by decide)
      sampleGen 8 0 "imgs/a.png" _ rfl⟩

/-- C7: enumeration fails with `DirectoryNotFound` exactly when the directory
does not exist; on an existing directory it returns the sorted list of the
entries whose lowercased extension is supported (joined with the input
directory), an empty — non-error — result when nothing matches, and the
atlas builder rejects an empty enumeration with `NoImagesFound`. -/
theorem c7_enumeration :
    (∀ dir : String, get_image_files dir none = .error .DirectoryNotFound)
    ∧ (∀ (dir : String) (entries : List String), ∃ l,
        get_image_files dir (some entries) = .ok l
        ∧ l.Sorted (· ≤ ·)
        ∧ l.Perm ((entries.filter (fun f => is_supported_file f)).map
            (fun f => path_join dir f))
        ∧ (entries.filter (fun f => is_supported_file f) = [] → l = []))
    ∧ (∀ (g : ImageAtlasGenerator) (entries : List String)
        (outcome : String → ImageOutcome),
        entries.filter (fun f => is_supported_file f) = [] →
        create_atlas g (some entries) outcome = .error .NoImagesFound) := by
  refine ⟨fun dir => rfl, fun dir entries => ?_, fun g entries outcome hempty => ?_⟩
  · refine ⟨_, rfl, ?_, ?_, ?_⟩
    · exact @List.sorted_insertionSort String (· ≤ ·) decStrLe _ _ _
    · exact @List.perm_insertionSort String (· ≤ ·) decStrLe _
    · intro hempty
      rw [hempty]
      rfl
  · simp only [create_atlas, get_image_files, hempty, List.map_nil]
    rfl

/-- C7 witness: a missing directory errors with `DirectoryNotFound`; an
existing directory holding only `readme.txt` enumerates to the empty list
and the atlas builder then fails with `NoImagesFound`. -/
theorem c7_enumeration_witness :
    get_image_files "imgs" none = .error .DirectoryNotFound
    ∧ create_atlas sampleGen (some ["readme.txt"])
        (fun _ => ImageOutcome.failBeforePaste) = .error .NoImagesFound :=
  ⟨c7_enumeration.1 "imgs",
    c7_enumeration.2.2 sampleGen ["readme.txt"] _ (by decide)⟩

/-- C6: a per-image failure (in particular a decode failure) is caught and
does not abort the run — `create_atlas` still returns a result — and the
failed file contributes no mapping entry: for every non-empty enumerated
list whose basenames are distinct (as directory entries are), the mapping
holds exactly one entry per fully processed image, i.e. `N` minus the number
of failures. -/
theorem c6_partial_failure (g : ImageAtlasGenerator)
    (entries files : List String) (outcome : String → ImageOutcome)
    (cols rows : Nat)
    (hfiles : get_image_files g.input_dir (some entries) = .ok files)
    (hne : files ≠ [])
    (hgrid : calculate_grid_size g files.length = some (cols, rows))
    (hnd : (files.map basename).Nodup) :
    ∃ pastes mapping,
      create_atlas g (some entries) outcome = .ok (pastes, mapping)
      ∧ mapping.length = files.countP (fun p => (outcome p).isOk)
      ∧ mapping.length
          = files.length - files.countP (fun p => !(outcome p).isOk) := by
  refine ⟨_, _,
    create_atlas_ok g entries files outcome cols rows hfiles hne hgrid hnd,
    recordsOf_length g cols outcome files 0, ?_⟩
  rw [recordsOf_length g cols outcome files 0]
  have := countP_isOk_add outcome files
  omega

/-- C6 witness: two images, one of which fails to decode — the run returns a
mapping with `2 − 1 = 1` entry. -/
theorem c6_partial_failure_witness :
    get_image_files sampleGen.input_dir (some ["b.png", "a.png"])
        = .ok ["imgs/a.png", "imgs/b.png"]
    ∧ ["imgs/a.png", "imgs/b.png"] ≠ []
    ∧ calculate_grid_size sampleGen (["imgs/a.png", "imgs/b.png"].length)
        = some (5, 1)
    ∧ ((["imgs/a.png", "imgs/b.png"].map basename)).Nodup
    ∧ ∃ pastes mapping,
        create_atlas sampleGen (some ["b.png", "a.png"])
            (fun p => if p = "imgs/a.png" then ImageOutcome.ok 16 24
              else ImageOutcome.failBeforePaste)
          = .ok (pastes, mapping)
        ∧ mapping.length
            = (["imgs/a.png", "imgs/b.png"].countP
                (fun p => (( fun p => if p = "imgs/a.png" then ImageOutcome.ok 16 24
                    else ImageOutcome.failBeforePaste) p).isOk))
        ∧ mapping.length
            = (["imgs/a.png", "imgs/b.png"].length)
              - (["imgs/a.png", "imgs/b.png"].countP
                  (fun p => !(((fun p => if p = "imgs/a.png" then ImageOutcome.ok 16 24
                      else ImageOutcome.failBeforePaste) p).isOk))) := by
  have hgrid : calculate_grid_size sampleGen
      (["imgs/a.png", "imgs/b.png"].length) = some (5, 1) := by
    simp only [calculate_grid_size, sampleGen, List.length_cons, List.length_nil]
    norm_num
    rw [show (⌈(2 : ℚ) / 5⌉ : Int) = 1 from by
      rw [Int.ceil_eq_iff]; norm_num]
    rfl
  exact ⟨by rfl, by decide, hgrid, by decide,
    c6_partial_failure sampleGen ["b.png", "a.png"] ["imgs/a.png", "imgs/b.png"]
      _ 5 1 (by rfl) (by decide) hgrid (by decide)⟩

/-- C8: the image at 0-based index `i` of the enumerated (sorted) list is
assigned to grid cell `col = i % columns`, `row = i / columns`, its cell
pixel origin is `(col * spriteWidth, row * spriteHeight)`, and the cell
dimensions recorded for every image are the configured
`spriteWidth × spriteHeight`, whatever grid `(columns, rows)` was
computed. -/
theorem c8_grid_assignment (g : ImageAtlasGenerator)
    (entries files : List String) (outcome : String → ImageOutcome)
    (cols rows : Nat)
    (hfiles : get_image_files g.input_dir (some entries) = .ok files)
    (hne : files ≠ [])
    (hgrid : calculate_grid_size g files.length = some (cols, rows))
    (hnd : (files.map basename).Nodup)
    (i : Nat) (p : String) (w h : Nat)
    (hi : files.get? i = some p) (ho : outcome p = .ok w h) :
    ∃ pastes mapping,
      create_atlas g (some entries) outcome = .ok (pastes, mapping)
      ∧ (placeImage g cols i p w h).2 ∈ mapping
      ∧ (placeImage g cols i p w h).2.cell_x = (i % cols) * g.sprite_width
      ∧ (placeImage g cols i p w h).2.cell_y = (i / cols) * g.sprite_height
      ∧ (placeImage g cols i p w h).2.cell_width = g.sprite_width
      ∧ (placeImage g cols i p w h).2.cell_height = g.sprite_height := by
  refine ⟨_, _,
    create_atlas_ok g entries files outcome cols rows hfiles hne hgrid hnd,
    ?_, rfl, rfl, rfl, rfl⟩
  have := recordsOf_mem g cols outcome files 0 i p w h hi ho
  rwa [Nat.zero_add] at this

/-- C8 witness: with two enumerated files and a 5-column grid, the file at
index 1 lands in cell `(1 % 5, 1 / 5) = (1, 0)` with origin `(32, 0)` and
cell size 32×32. -/
theorem c8_grid_assignment_witness :
    get_image_files sampleGen.input_dir (some ["b.png", "a.png"])
        = .ok ["imgs/a.png", "imgs/b.png"]
    ∧ ["imgs/a.png", "imgs/b.png"] ≠ []
    ∧ calculate_grid_size sampleGen (["imgs/a.png", "imgs/b.png"].length)
        = some (5, 1)
    ∧ (["imgs/a.png", "imgs/b.png"].map basename).Nodup
    ∧ (["imgs/a.png", "imgs/b.png"].get? 1 = some "imgs/b.png")
    ∧ ∃ pastes mapping,
        create_atlas sampleGen (some ["b.png", "a.png"])
            (fun _ => ImageOutcome.ok 16 24) = .ok (pastes, mapping)
        ∧ (placeImage sampleGen 5 1 "imgs/b.png" 16 24).2 ∈ mapping
        ∧ (placeImage sampleGen 5 1 "imgs/b.png" 16 24).2.cell_x
            = (1 % 5) * sampleGen.sprite_width
        ∧ (placeImage sampleGen 5 1 "imgs/b.png" 16 24).2.cell_y
            = (1 / 5) * sampleGen.sprite_height
        ∧ (placeImage sampleGen 5 1 "imgs/b.png" 16 24).2.cell_width
            = sampleGen.sprite_width
        ∧ (placeImage sampleGen 5 1 "imgs/b.png" 16 24).2.cell_height
            = sampleGen.sprite_height := by
  have hgrid : calculate_grid_size sampleGen
      (["imgs/a.png", "imgs/b.png"].length) = some (5, 1) := by
    simp only [calculate_grid_size, sampleGen, List.length_cons, List.length_nil]
    norm_num
    rw [show (⌈(2 : ℚ) / 5⌉ : Int) = 1 from by
      rw [Int.ceil_eq_iff]; norm_num]
    rfl
  exact ⟨by rfl, by decide, hgrid, by decide, by decide,
    c8_grid_assignment sampleGen ["b.png", "a.png"]
      ["imgs/a.png", "imgs/b.png"] _ 5 1 (by rfl) (by decide) hgrid (by decide)
      1 "imgs/b.png" 16 24 (by decide) rfl⟩

/-- C10: the `except` clause spans the whole per-image body, not only the
decode: whatever the failure point of any file, `create_atlas` still returns
a result (the run is not aborted), the failing file contributes no mapping
entry, a file failing after its paste still leaves its paste on the canvas
(whatever had been composited is kept), and every other file is processed
independently — the result is exactly the pastes and records of all files. -/
theorem c10_catch_all (g : ImageAtlasGenerator)
    (entries files : List String) (outcome : String → ImageOutcome)
    (cols rows : Nat)
    (hfiles : get_image_files g.input_dir (some entries) = .ok files)
    (hne : files ≠ [])
    (hgrid : calculate_grid_size g files.length = some (cols, rows))
    (hnd : (files.map basename).Nodup) :
    ∃ pastes mapping,
      create_atlas g (some entries) outcome = .ok (pastes, mapping)
      ∧ pastes = pastesOf g cols outcome 0 files
      ∧ mapping = recordsOf g cols outcome 0 files
      ∧ (∀ p ∈ files, (outcome p).isOk = false →
          basename p ∉ mapping.map PlacementRecord.filename)
      ∧ (∀ (j : Nat) (p : String) (w h : Nat),
          files.get? j = some p → outcome p = .failAfterPaste w h →
          (placeImage g cols j p w h).1 ∈ pastes) := by
  refine ⟨_, _,
    create_atlas_ok g entries files outcome cols rows hfiles hne hgrid hnd,
    rfl, rfl, ?_, ?_⟩
  · intro p hp hfail hc
    rw [recordsOf_map_filename g cols outcome files 0] at hc
    obtain ⟨q, hq, hqe⟩ := List.mem_map.mp hc
    obtain ⟨hqmem, hqok⟩ := List.mem_filter.mp hq
    have : q = p := List.inj_on_of_nodup_map hnd hqmem hp hqe
    subst this
    rw [hfail] at hqok
    exact Bool.false_ne_true hqok
  · intro j p w h hj ho
    have := pastesOf_mem_of_failAfterPaste g cols outcome files 0 j p w h hj ho
    rwa [Nat.zero_add] at this

/-- C10 witness: one file fails after its paste (its paste is on the canvas,
no mapping entry), one fails before (nothing recorded), one succeeds — and
the run still returns a result. -/
theorem c10_catch_all_witness :
    get_image_files sampleGen.input_dir (some ["b.png", "a.png", "c.png"])
        = .ok ["imgs/a.png", "imgs/b.png", "imgs/c.png"]
    ∧ ["imgs/a.png", "imgs/b.png", "imgs/c.png"] ≠ []
    ∧ calculate_grid_size sampleGen
        (["imgs/a.png", "imgs/b.png", "imgs/c.png"].length) = some (6, 1)
    ∧ (["imgs/a.png", "imgs/b.png", "imgs/c.png"].map basename).Nodup
    ∧ ∃ pastes mapping,
        create_atlas sampleGen (some ["b.png", "a.png", "c.png"])
            (fun p => if p = "imgs/a.png" then ImageOutcome.failAfterPaste 16 24
              else if p = "imgs/b.png" then ImageOutcome.failBeforePaste
              else ImageOutcome.ok 8 8)
          = .ok (pastes, mapping)
        ∧ pastes = pastesOf sampleGen 6
            (fun p => if p = "imgs/a.png" then ImageOutcome.failAfterPaste 16 24
              else if p = "imgs/b.png" then ImageOutcome.failBeforePaste
              else ImageOutcome.ok 8 8) 0
            ["imgs/a.png", "imgs/b.png", "imgs/c.png"]
        ∧ mapping = recordsOf sampleGen 6
            (fun p => if p = "imgs/a.png" then ImageOutcome.failAfterPaste 16 24
              else if p = "imgs/b.png" then ImageOutcome.failBeforePaste
              else ImageOutcome.ok 8 8) 0
            ["imgs/a.png", "imgs/b.png", "imgs/c.png"]
        ∧ (∀ p ∈ ["imgs/a.png", "imgs/b.png", "imgs/c.png"],
            (((fun p => if p = "imgs/a.png" then ImageOutcome.failAfterPaste 16 24
              else if p = "imgs/b.png" then ImageOutcome.failBeforePaste
              else ImageOutcome.ok 8 8) : String → ImageOutcome) p).isOk = false →
            basename p ∉ mapping.map PlacementRecord.filename)
        ∧ (∀ (j : Nat) (p : String) (w h : Nat),
            ["imgs/a.png", "imgs/b.png", "imgs/c.png"].get? j = some p →
            ((fun p => if p = "imgs/a.png" then ImageOutcome.failAfterPaste 16 24
              else if p = "imgs/b.png" then ImageOutcome.failBeforePaste
              else ImageOutcome.ok 8 8) : String → ImageOutcome) p
              = .failAfterPaste w h →
            (placeImage sampleGen 6 j p w h).1 ∈ pastes) := by
  have hgrid : calculate_grid_size sampleGen
      (["imgs/a.png", "imgs/b.png", "imgs/c.png"].length) = some (6, 1) := by
    simp only [calculate_grid_size, sampleGen, List.length_cons, List.length_nil]
    norm_num
    rw [show (⌈(1 : ℚ) / 2⌉ : Int) = 1 from by
      rw [Int.ceil_eq_iff]; norm_num]
    rfl
  exact ⟨by rfl, by decide, hgrid, by decide,
    c10_catch_all sampleGen ["b.png", "a.png", "c.png"]
      ["imgs/a.png", "imgs/b.png", "imgs/c.png"] _ 6 1 (by rfl) (by decide)
      hgrid (by decide)⟩

end Imgss
